import Mathlib

/-!
Verification of the screen-state engine of an in-memory terminal emulator
(repository `midterm`).  The Go sources are shallowly embedded: Go slices of
runes become `List Char`, Go `int` counts become `Int` (negative counts are
meaningful to several guards), and grid coordinates that are provably
non-negative in every reachable state are carried as `Nat`.  A Go run-time
fault (index out of range) is modelled by `Option`-returning "checked"
variants of the two functions whose fault behaviour is under scrutiny;
everywhere else total functions are used, and they agree with the source on
every input on which the source does not fault.

The repository ships two generations of the `Screen` type.  The file
`src/unnamed/part_000` holds a self-contained `Screen` with a per-cell
format matrix; it is embedded below as `Screen`.  The engine in
`terminal.go` uses a richer screen (run-length format rows, change ledger,
saved cursor, scroll region) whose defining file is not part of the sources
provided; that screen is modelled from the specification as `TermScreen`,
and every such modelled definition carries a doc comment starting with
"Modelled from the spec:".
-/

namespace Midterm

/-- Colour of a cell: default, 16-colour, 256-colour or 24-bit (spec §3). -/
inductive Color where
  | default : Color
  | indexed : Nat → Color
  | indexed256 : Nat → Color
  | rgb : Nat → Nat → Nat → Color
deriving DecidableEq

/-- Display attributes of a cell (spec §3).  The zero value (all fields at
their defaults) is the default format. -/
structure Format where
  fg : Color := .default
  bg : Color := .default
  bold : Bool := false
  italic : Bool := false
  underline : Bool := false
  blink : Bool := false
  inverse : Bool := false
  conceal : Bool := false
  strikethrough : Bool := false
deriving DecidableEq

instance : Inhabited Format := ⟨{}⟩

/-- Cursor state: coordinates, format, cursor style (source `Cursor` in
terminal.go; the style enumeration is represented by a number). -/
structure Cursor where
  Y : Nat := 0
  X : Nat := 0
  F : Format := {}
  S : Nat := 0
deriving DecidableEq

/-- A scrollable region of the terminal (source `ScrollRegion`; the source
field `End` is rendered `stop` because `end` clashes with a keyword). -/
structure ScrollRegion where
  start : Nat
  stop : Nat
deriving DecidableEq

/-- Write one cell of a grid; out-of-range writes leave the grid unchanged
(the states examined by the theorems keep all writes in range). -/
def setCell (g : List (List α)) (y x : Nat) (a : α) : List (List α) :=
  g.set y ((g.getD y []).set x a)

/-- Go `uint64` increment of a change counter. -/
def bump64 (c : Nat) : Nat := (c + 1) % (2 ^ 64)

/-- Increment the change counter of row `y`. -/
def bumpAt (l : List Nat) (y : Nat) : List Nat := l.set y (bump64 (l.getD y 0))

/-- The Go zero value of `rune`. -/
def nulChar : Char := Char.ofNat 0

/-! ### The `Screen` of src/unnamed/part_000 -/

/-- The screen type of src/unnamed/part_000: dimensions, rune grid, per-cell
format grid and a cursor. -/
structure Screen where
  height : Nat
  width : Nat
  content : List (List Char)
  format : List (List Format)
  cursor : Cursor
deriving DecidableEq

/-- `Screen.clear` (part_000 lines 75-81): return unchanged when
`y >= len(content)` or `x >= len(content[0])`; otherwise write a space and
the given format.  The source indexes row `y` after checking `x` only
against row 0; the total model writes through `setCell` (no-op out of
range) and the fault is analysed by `Screen.clearChecked`. -/
def Screen.clear (v : Screen) (y x : Nat) (f : Format) : Screen :=
  if y ≥ v.content.length then v
  else if x ≥ (v.content.getD 0 []).length then v
  else { v with content := setCell v.content y x ' ', format := setCell v.format y x f }

/-- `Screen.clear` with the Go run-time faults made explicit: after the
source's two guards pass, the writes `content[y][x]` and `format[y][x]`
fault (`none`) unless `x` is inside row `y` of both grids. -/
def Screen.clearChecked (v : Screen) (y x : Nat) (f : Format) : Option Screen :=
  if y ≥ v.content.length then some v
  else if x ≥ (v.content.getD 0 []).length then some v
  else if x < (v.content.getD y []).length ∧ y < v.format.length ∧
            x < (v.format.getD y []).length then
    some { v with content := setCell v.content y x ' ', format := setCell v.format y x f }
  else none

/-- One appended row of `Screen.resize`'s grow-height branch: append a row of
zero runes and a row of zero formats, then clear the columns of the row at
index `y` (the source writes `v.clear(v.Height+row, col, Format{})` for each
`col < v.Width`). -/
def Screen.growOneRow (v : Screen) (y : Nat) : Screen :=
  let v := { v with
    content := v.content ++ [List.replicate v.width nulChar],
    format := v.format ++ [List.replicate v.width ({} : Format)] }
  (List.range v.width).foldl (fun s col => s.clear y col {}) v

/-- The grow-height loop of `Screen.resize`: `n` iterations, the `row`-th
appending one row and clearing it at index `v.Height + row` (the `Height`
field, unchanged throughout). -/
def Screen.growRows (v : Screen) (n : Nat) : Screen :=
  (List.range n).foldl (fun s row => s.growOneRow (s.height + row)) v

/-- One row of `Screen.resize`'s grow-width branch: reallocate the row to
length `w` (copy, zero-fill the tail), same for the format row (zero value
is the default format), then clear columns `v.Width ≤ j < w` of that row. -/
def Screen.widthGrowRow (v : Screen) (i w : Nat) : Screen :=
  let c := v.content.getD i []
  let fr := v.format.getD i []
  let c' := c.take w ++ List.replicate (w - min w c.length) nulChar
  let f' := fr.take w ++ List.replicate (w - min w fr.length) ({} : Format)
  let v := { v with content := v.content.set i c', format := v.format.set i f' }
  (List.range (w - v.width)).foldl (fun s k => s.clear i (v.width + k) {}) v

/-- `Screen.resize` (part_000 lines 40-73).  Grow height: append rows and
clear them.  Shrink height: truncate `content` and `format`.  Grow width:
reallocate and clear each row's tail.  Shrink width: truncate each row.
The source updates neither the `Height` nor the `Width` field and never
touches the cursor. -/
def Screen.resize (v : Screen) (h w : Nat) : Screen :=
  let v :=
    if h > v.height then v.growRows (h - v.height)
    else if h < v.height then
      { v with content := v.content.take h, format := v.format.take h }
    else v
  if w > v.width then
    (List.range v.content.length).foldl (fun s i => s.widthGrowRow i w) v
  else if w < v.width then
    { v with content := v.content.map (fun r => r.take w),
             format := v.format.map (fun r => r.take w) }
  else v

/-- `newScreen`/`Screen.reset` of part_000: blank rows, default formats,
cursor at the origin. -/
def Screen.new (h w : Nat) : Screen :=
  { height := h, width := w,
    content := List.replicate h (List.replicate w ' '),
    format := List.replicate h (List.replicate w ({} : Format)),
    cursor := {} }

/-! ### Generic grid primitives of terminal.go

The Go functions are generic in the element type; they are embedded as
functions on `List (List α)` / `List α`.  The source loops mutate the array
in place; each embedding is written as a single pass computing the final
value of every index, with a comment relating it to the source loops. -/

/-- `scrollUp` (terminal.go 255-273).  Guards: invalid inputs are a no-op
(`start < 0` holds vacuously for `Nat`).  Shift loop: rows
`start ≤ i`, `i+positions ≤ end` receive row `i+positions`.  Fill loop: rows
`end-positions+1 ≤ i ≤ end` become a blank row of the length that row had
before the call (those rows are untouched by the shift loop).  The source's
fill loop starts below index 0 when `positions > end+1` (a run-time fault);
no claim exercises that region and the callers pass `positions = 1`. -/
def scrollUpG (arr : List (List α)) (positions : Int) (start stop : Nat) (empty : α) :
    List (List α) :=
  if stop > arr.length ∨ start ≥ stop ∨ positions ≤ 0 then arr
  else
    let p := positions.toNat
    (List.range arr.length).map fun i =>
      if stop + 1 ≤ i + p ∧ i ≤ stop then List.replicate (arr.getD i []).length empty
      else if start ≤ i ∧ i + p ≤ stop then arr.getD (i + p) []
      else arr.getD i []

/-- `scrollUpShallow` (terminal.go 275-289): as `scrollUpG`, but rows are
opaque values and the fill rows are replaced by `init` (in the source, a
fresh value produced by a nullary function). -/
def scrollUpShallowG [Inhabited α] (arr : List α) (positions : Int) (start stop : Nat)
    (init : α) : List α :=
  if stop > arr.length ∨ start ≥ stop ∨ positions ≤ 0 then arr
  else
    let p := positions.toNat
    (List.range arr.length).map fun i =>
      if stop + 1 ≤ i + p ∧ i ≤ stop then init
      else if start ≤ i ∧ i + p ≤ stop then arr.getD (i + p) default
      else arr.getD i default

/-- `insertLines` (terminal.go 327-344).  Guard: no-op when
`start+ps > len(arr)` or `ps ≤ 0`.  Shift loop (descending, reads original
rows): rows `start+ps ≤ i ≤ scrollEnd` receive row `i-ps`.  Fill loop: rows
`start ≤ i < start+ps` become blank rows of their original length. -/
def insertLinesG (arr : List (List α)) (start : Nat) (ps : Int)
    (_scrollStart scrollEnd : Nat) (empty : α) : List (List α) :=
  if (start : Int) + ps > arr.length ∨ ps ≤ 0 then arr
  else
    let p := ps.toNat
    (List.range arr.length).map fun i =>
      if start ≤ i ∧ i < start + p then List.replicate (arr.getD i []).length empty
      else if start + p ≤ i ∧ i ≤ scrollEnd then arr.getD (i - p) []
      else arr.getD i []

/-- `insertLinesShallow` (terminal.go 346-360): as `insertLinesG` with
opaque rows and fill value `init`. -/
def insertLinesShallowG [Inhabited α] (arr : List α) (start : Nat) (ps : Int)
    (_scrollStart scrollEnd : Nat) (init : α) : List α :=
  if (start : Int) + ps > arr.length ∨ ps ≤ 0 then arr
  else
    let p := ps.toNat
    (List.range arr.length).map fun i =>
      if start ≤ i ∧ i < start + p then init
      else if start + p ≤ i ∧ i ≤ scrollEnd then arr.getD (i - p) default
      else arr.getD i default

/-- `deleteLines` (terminal.go 362-381).  Guard as in `insertLinesG`.  The
`copy` moves `m = min (scrollEnd-start) (len-start-ps)` rows up by `ps`;
the fill loop rewrites rows `scrollEnd-ps+1 ≤ i ≤ scrollEnd` as blank rows
of the length of the post-copy row `start`. -/
def deleteLinesG (arr : List (List α)) (start : Nat) (ps : Int)
    (_scrollStart scrollEnd : Nat) (empty : α) : List (List α) :=
  if (start : Int) + ps > arr.length ∨ ps ≤ 0 then arr
  else
    let p := ps.toNat
    let m := min (scrollEnd - start) (arr.length - (start + p))
    let copied := (List.range arr.length).map fun i =>
      if start ≤ i ∧ i < start + m then arr.getD (i + p) []
      else arr.getD i []
    let fillLen := (copied.getD start []).length
    (List.range arr.length).map fun i =>
      if scrollEnd + 1 ≤ i + p ∧ i ≤ scrollEnd then List.replicate fillLen empty
      else copied.getD i []

/-- `deleteLinesShallow` (terminal.go 383-399): as `deleteLinesG` with
opaque rows and fill value `init`. -/
def deleteLinesShallowG [Inhabited α] (arr : List α) (start : Nat) (ps : Int)
    (_scrollStart scrollEnd : Nat) (init : α) : List α :=
  if (start : Int) + ps > arr.length ∨ ps ≤ 0 then arr
  else
    let p := ps.toNat
    let m := min (scrollEnd - start) (arr.length - (start + p))
    let copied := (List.range arr.length).map fun i =>
      if start ≤ i ∧ i < start + m then arr.getD (i + p) default
      else arr.getD i default
    (List.range arr.length).map fun i =>
      if scrollEnd + 1 ≤ i + p ∧ i ≤ scrollEnd then init
      else copied.getD i default

/-- `eraseCharacters` (terminal.go 401-414).  Guards: no-op when the row is
out of range or `col+ps > len(arr[row])` (checked before the count is
adjusted).  A count `ps ≤ 0` is then replaced by 1, and `ps` cells from
`col` are overwritten with `empty`. -/
def eraseCharactersG (arr : List (List α)) (row col : Nat) (ps : Int) (empty : α) :
    List (List α) :=
  if row ≥ arr.length then arr
  else if (col : Int) + ps > ((arr.getD row []).length : Int) then arr
  else
    let p : Nat := if ps ≤ 0 then 1 else ps.toNat
    (List.range p).foldl (fun acc i => setCell acc row (col + i) empty) arr

/-- `deleteCharacters` (terminal.go 416-437).  Guards: no-op when the row or
column is out of range or `ps < 0`.  The count actually deleted is `ps`
(0 meaning 1) clamped so `col+actualPs ≤ len`; the row is shifted left by
`actualPs` with its last `actualPs` cells keeping their old values, and the
backfill loop then writes `empty` into indices `len-ps ≤ i < len` — using
the unclamped `ps`, which sends the loop below index 0 when
`ps > len(arr[row])` (a run-time fault, made explicit by
`deleteCharactersCheckedG`; the total model only fills in-range cells). -/
def deleteCharactersG (arr : List (List α)) (row col : Nat) (ps : Int) (empty : α) :
    List (List α) :=
  if row ≥ arr.length then arr
  else
    let r := arr.getD row []
    if col ≥ r.length ∨ ps < 0 then arr
    else
      let a0 : Nat := if ps = 0 then 1 else ps.toNat
      let actual : Nat := if col + a0 > r.length then r.length - col else a0
      let shifted := r.take col ++ r.drop (col + actual) ++ r.drop (r.length - actual)
      let filled :=
        (List.range ps.toNat).foldl
          (fun acc i => acc.set (r.length - ps.toNat + i) empty) shifted
      arr.set row filled

/-- `deleteCharacters` with the Go run-time fault made explicit: when the
guards pass and `ps > len(arr[row])`, the source's backfill loop writes at
the negative index `len(arr[row]) - ps` and faults (`none`). -/
def deleteCharactersCheckedG (arr : List (List α)) (row col : Nat) (ps : Int)
    (empty : α) : Option (List (List α)) :=
  if row ≥ arr.length then some arr
  else
    let r := arr.getD row []
    if col ≥ r.length ∨ ps < 0 then some arr
    else if (r.length : Int) < ps then none
    else some (deleteCharactersG arr row col ps empty)

/-! ### The screen used by terminal.go

terminal.go references screen fields and helpers (`Format.Rows`,
`Format.Paint/Insert/Delete`, `Changes`, `MaxY/MaxX`, `SavedCursor`,
`ScrollRegion`, `paint`, `changed`, `moveAbs`/`moveRel`, `ensureHeight`,
the screen-level `resize`) whose defining file is not among the sources
provided — the `Screen` of part_000 is an older, incompatible variant.
Those parts are modelled from the specification (§3, §4.1, §4.3, §4.6).
The run-length format rows are represented per cell: spec §3 defines
`paint`, `insert` and `delete` by the cell states they produce, and that
per-cell meaning is what the embedding keeps. -/

/-- Modelled from the spec: the screen of the terminal engine (§3) — its
defining file is not under src/.  Fields: dimensions, rune grid, format
rows (per-cell model of the run-length rows), per-row change counters,
cursor, saved cursor, painted extents and the optional scroll region. -/
structure TermScreen where
  height : Nat
  width : Nat
  content : List (List Char)
  formatRows : List (List Format)
  changes : List Nat
  cursor : Cursor
  savedCursor : Cursor
  maxY : Nat
  maxX : Nat
  scrollRegion : Option ScrollRegion
deriving DecidableEq

/-- Modelled from the spec: a freshly reset screen (§4.1 `reset`) — blank
rows, default formats, zero counters, cursor and saved cursor at the
origin, no scroll region. -/
def TermScreen.new (h w : Nat) : TermScreen :=
  { height := h, width := w,
    content := List.replicate h (List.replicate w ' '),
    formatRows := List.replicate h (List.replicate w ({} : Format)),
    changes := List.replicate h 0,
    cursor := {}, savedCursor := {}, maxY := 0, maxX := 0, scrollRegion := none }

/-- Modelled from the spec: the change-ledger bump (§3) — `changed` is not
under src/.  The row's unsigned counter is incremented; the source's second
argument (a redraw flag) does not affect the modelled state. -/
def TermScreen.changed (s : TermScreen) (y : Nat) : TermScreen :=
  { s with changes := bumpAt s.changes y }

/-- Modelled from the spec: `paint` (§4.3 step 2) is not under src/.  Write
the rune and the format at `(y, x)` (the format write is `Format.Paint`,
§3: set one cell) and bump the row's change counter. -/
def TermScreen.paint (s : TermScreen) (y x : Nat) (f : Format) (r : Char) : TermScreen :=
  ({ s with content := setCell s.content y x r,
            formatRows := setCell s.formatRows y x f }).changed y

/-- Modelled from the spec: grow the screen to at least `h` rows (§4.1 grow
height, §4.6): append blank rows with default formats and zero counters. -/
def TermScreen.growTo (s : TermScreen) (h : Nat) : TermScreen :=
  if s.height < h then
    { s with
      height := h,
      content := s.content ++
        List.replicate (h - s.content.length) (List.replicate s.width ' '),
      formatRows := s.formatRows ++
        List.replicate (h - s.formatRows.length) (List.replicate s.width ({} : Format)),
      changes := s.changes ++ List.replicate (h - s.changes.length) 0 }
  else s

/-- Modelled from the spec: in auto-resize-X mode rows are ragged and grow to
the farthest column written (§3, §4.6); extend row `y` to at least `n`
cells (blank, default format) and keep the width invariant `cursor.x <
width` by raising `width` when needed. -/
def TermScreen.extendRow (s : TermScreen) (y n : Nat) : TermScreen :=
  let r := s.content.getD y []
  if r.length < n then
    { s with
      content := s.content.set y (r ++ List.replicate (n - r.length) ' '),
      formatRows := s.formatRows.set y
        ((s.formatRows.getD y []) ++
          List.replicate (n - (s.formatRows.getD y []).length) ({} : Format)),
      width := max s.width n }
  else s

/-- Modelled from the spec: the screen-level `resize` used by the engine is
not under src/.  Per §4.1: grow height appends blank rows; shrink height
truncates and clamps the cursor row to `h-1`; grow width pads every row;
shrink width truncates every row (and, to keep §3 invariant 2, clamps the
cursor column); the dimension fields take the new values.  This is the
height phase; see `TermScreen.resizeWidth` and `TermScreen.resize`. -/
def TermScreen.resizeHeight (s : TermScreen) (h : Nat) : TermScreen :=
  if h > s.height then s.growTo h
  else if h < s.height then
    { s with
      height := h,
      content := s.content.take h, formatRows := s.formatRows.take h,
      changes := s.changes.take h,
      cursor := if s.cursor.Y ≥ h then { s.cursor with Y := h - 1 } else s.cursor }
  else s

/-- The width phase of the modelled `resize` (see `TermScreen.resize`). -/
def TermScreen.resizeWidth (s : TermScreen) (w : Nat) : TermScreen :=
  if w > s.width then
    { s with
      width := w,
      content := s.content.map (fun r => r ++ List.replicate (w - r.length) ' '),
      formatRows := s.formatRows.map
        (fun r => r ++ List.replicate (w - r.length) ({} : Format)) }
  else if w < s.width then
    { s with
      width := w,
      content := s.content.map (fun r => r.take w),
      formatRows := s.formatRows.map (fun r => r.take w),
      cursor := if s.cursor.X ≥ w then { s.cursor with X := w - 1 } else s.cursor }
  else s

/-- The modelled `resize`: the height phase followed by the width phase. -/
def TermScreen.resize (s : TermScreen) (h w : Nat) : TermScreen :=
  (s.resizeHeight h).resizeWidth w

/-- Modelled from the spec: `Format.Delete` (§3): delete `n` cells of the
format row at the cursor column, extending the tail with the default format
so the row keeps its length; deleting a non-positive count removes nothing
(§4.2: counts ≤ 0 are no-ops for the row primitives). -/
def canvasDelete (rows : List (List Format)) (y x : Nat) (n : Int) :
    List (List Format) :=
  if n ≤ 0 then rows
  else
    let r := rows.getD y []
    let p := min n.toNat (r.length - x)
    rows.set y (r.take x ++ r.drop (x + p) ++ List.replicate p ({} : Format))

/-- `Format.Paint` applied to the `n` cells starting at `(y, x)` — the loop
of the source `eraseCharacters` wrapper (terminal.go 477-479); runs zero
times when `n ≤ 0`. -/
def paintRange (rows : List (List Format)) (y x : Nat) (n : Int) (f : Format) :
    List (List Format) :=
  (List.range n.toNat).foldl (fun acc i => setCell acc y (x + i) f) rows

/-! ### The Terminal of terminal.go -/

/-- The terminal state (terminal.go `Terminal`), restricted to the fields the
engine operations below read or write.  `screen` is the embedded active
screen pointer and may be `none` exactly as the Go pointer may be nil (it
only becomes nil through `swapAlt` with a nil `Alt`).  `onScrollbackSet`
records whether a scrollback observer is registered, and `scrollbackLog`
is the (observable) list of lines the observer has received. -/
structure Terminal where
  screen : Option TermScreen
  alt : Option TermScreen
  isAlt : Bool
  autoResizeY : Bool
  autoResizeX : Bool
  wrap : Bool
  onScrollbackSet : Bool
  scrollbackLog : List (List Char)
deriving DecidableEq

/-- `NewTerminal(rows, cols)` restricted to the modelled fields: a fresh
screen, no alternate screen, all flags clear. -/
def Terminal.new (rows cols : Nat) : Terminal :=
  { screen := some (TermScreen.new rows cols), alt := none, isAlt := false,
    autoResizeY := false, autoResizeX := false, wrap := false,
    onScrollbackSet := false, scrollbackLog := [] }

/-- `scrollRegion` (terminal.go 543-549): the active scroll region, or the
full screen `(0, height-1)` when none is set. -/
def TermScreen.scrollRegionPair (s : TermScreen) : Nat × Nat :=
  match s.scrollRegion with
  | none => (0, s.height - 1)
  | some r => (r.start, r.stop)

/-- `scrollUpN` (terminal.go 526-541).  The source's scrollback notification
is dead code: the `onScrollback != nil` conditional and its loop are
present but the call inside the loop is commented out, so the observer
receives nothing and `scrollbackLog` is unchanged.  The wrap flag is
deliberately not reset (source comment).  Content, format rows and change
counters scroll within the active region; the freed rows are filled with
blanks, full-width runs of the cursor format, and counter value 1. -/
def Terminal.scrollUpN (t : Terminal) (n : Int) : Terminal :=
  match t.screen with
  | none => t
  | some s =>
    let p := s.scrollRegionPair
    { t with screen := some { s with
        content := scrollUpG s.content n p.1 p.2 ' ',
        formatRows := scrollUpShallowG s.formatRows n p.1 p.2
          (List.replicate s.width s.cursor.F),
        changes := scrollUpShallowG s.changes n p.1 p.2 1 } }

/-- Modelled from the spec: absolute cursor motion is not under src/ (only
its callers are).  Per §3 invariant 2 the target is clamped into
`[0, height-1] x [0, width-1]` (negative targets clamp to 0); per §4.3 and
§4.6, in auto-resize-Y mode a target row past the bottom grows the screen
instead of clamping, and in auto-resize-X mode a target column past the end
of its row extends that row, so horizontal motion is never clamped.  The
wrap flag is untouched: callers clear it themselves (see `home` in the
source). -/
def Terminal.moveAbs (t : Terminal) (y x : Int) : Terminal :=
  match t.screen with
  | none => t
  | some s =>
    let s := if t.autoResizeY ∧ (s.height : Int) < y + 1 then s.growTo (y + 1).toNat else s
    let y' : Nat := min y.toNat (s.height - 1)
    if t.autoResizeX then
      let x' : Nat := x.toNat
      let s := s.extendRow y' (x' + 1)
      { t with screen := some { s with cursor := { s.cursor with Y := y', X := x' } } }
    else
      let x' : Nat := min x.toNat (s.width - 1)
      { t with screen := some { s with cursor := { s.cursor with Y := y', X := x' } } }

/-- Modelled from the spec: relative cursor motion — `moveAbs` applied to
cursor + offset. -/
def Terminal.moveRel (t : Terminal) (dy dx : Int) : Terminal :=
  match t.screen with
  | none => t
  | some s => t.moveAbs ((s.cursor.Y : Int) + dy) ((s.cursor.X : Int) + dx)

/-- `moveDown` (terminal.go 602-615): at the bottom of a set scroll region,
scroll the region; else at the bottom of the screen without auto-resize-Y,
scroll (the active region — see `scrollUpN`); else move down one row. -/
def Terminal.moveDown (t : Terminal) : Terminal :=
  match t.screen with
  | none => t
  | some s =>
    if s.scrollRegion.map ScrollRegion.stop = some s.cursor.Y then t.scrollUpN 1
    else if s.cursor.Y + 1 = s.height ∧ ¬t.autoResizeY then t.scrollUpN 1
    else t.moveRel 1 0

/-- Set the cursor column of the active screen (the `v.Cursor.X = 0`
assignment at the top of `put`). -/
def Terminal.withCursorX (t : Terminal) (x : Nat) : Terminal :=
  { t with screen := t.screen.map fun s => { s with cursor := { s.cursor with X := x } } }

/-- `advance` (terminal.go 234-241): at the last column without
auto-resize-X, set the wrap flag and stay; otherwise move right one column
and bump the (new) cursor row's change counter. -/
def Terminal.advance (t : Terminal) : Terminal :=
  match t.screen with
  | none => t
  | some s =>
    if ¬t.autoResizeX ∧ s.cursor.X + 1 = s.width then { t with wrap := true }
    else
      let t := t.moveRel 0 1
      match t.screen with
      | none => t
      | some s2 => { t with screen := some (s2.changed s2.cursor.Y) }

/-- The paint-and-advance tail of `put` (terminal.go 222-230): paint the
rune at the cursor with the cursor format, update the painted extents,
then `advance`. -/
def Terminal.putCore (t : Terminal) (r : Char) : Terminal :=
  match t.screen with
  | none => t
  | some s =>
    let y := s.cursor.Y
    let x := s.cursor.X
    let s := s.paint y x s.cursor.F r
    let s := { s with maxY := max s.maxY y, maxX := max s.maxX x }
    ({ t with screen := some s }).advance

/-- `put` (terminal.go 216-231): handle a pending wrap (cursor to column 0,
`moveDown`, clear the flag), then paint and advance (`putCore`). -/
def Terminal.put (t : Terminal) (r : Char) : Terminal :=
  (if t.wrap then { (t.withCursorX 0).moveDown with wrap := false } else t).putCore r

/-- `eraseCharacters` (terminal.go 474-481): clear the wrap flag, overwrite
cells in the content row, paint the same cells with the cursor format, bump
the row's counter. -/
def Terminal.eraseCharacters (t : Terminal) (n : Int) : Terminal :=
  match t.screen with
  | none => t
  | some s =>
    let s := { s with
      content := eraseCharactersG s.content s.cursor.Y s.cursor.X n ' ',
      formatRows := paintRange s.formatRows s.cursor.Y s.cursor.X n s.cursor.F }
    { t with wrap := false, screen := some (s.changed s.cursor.Y) }

/-- `deleteCharacters` (terminal.go 467-472): clear the wrap flag, shift the
content row left, `Format.Delete` the format row, bump the row's counter. -/
def Terminal.deleteCharacters (t : Terminal) (n : Int) : Terminal :=
  match t.screen with
  | none => t
  | some s =>
    let s := { s with
      content := deleteCharactersG s.content s.cursor.Y s.cursor.X n ' ',
      formatRows := canvasDelete s.formatRows s.cursor.Y s.cursor.X n }
    { t with wrap := false, screen := some (s.changed s.cursor.Y) }

/-- Modelled from the spec: `ensureHeight` is not under src/.  Per §4.6 the
screen only ever grows in auto-resize-Y mode; growth appends blank rows
(§4.1); otherwise the call has no effect. -/
def Terminal.ensureHeight (t : Terminal) (h : Int) : Terminal :=
  if t.autoResizeY then
    { t with screen := t.screen.map (fun s => s.growTo h.toNat) }
  else t

/-- The cursor row as the Go expression `v.Cursor.Y` reads it (a nil screen
would fault; unreachable through the public API). -/
def Terminal.cursorYOf (t : Terminal) : Nat :=
  (t.screen.map (fun s => s.cursor.Y)).getD 0

/-- `insertLines` (terminal.go 483-497): `ensureHeight(cursor.Y + n)` first;
then, when the cursor row is inside the active region, clear the wrap flag
and shift lines down within the region (content, format rows with
full-width cursor-format fills, counters filled with 1); when the cursor
row is outside the region, return after the `ensureHeight`. -/
def Terminal.insertLines (t : Terminal) (n : Int) : Terminal :=
  let t1 := t.ensureHeight ((t.cursorYOf : Int) + n)
  match t1.screen with
  | none => t1
  | some s =>
    let p := s.scrollRegionPair
    if s.cursor.Y < p.1 ∨ p.2 < s.cursor.Y then t1
    else
      let s := { s with
        content := insertLinesG s.content s.cursor.Y n p.1 p.2 ' ',
        formatRows := insertLinesShallowG s.formatRows s.cursor.Y n p.1 p.2
          (List.replicate s.width s.cursor.F),
        changes := insertLinesShallowG s.changes s.cursor.Y n p.1 p.2 1 }
      { t1 with wrap := false, screen := some s }

/-- `deleteLines` (terminal.go 499-512): when the cursor row is outside the
active region, return with nothing changed; otherwise clear the wrap flag
and shift lines up within the region. -/
def Terminal.deleteLines (t : Terminal) (n : Int) : Terminal :=
  match t.screen with
  | none => t
  | some s =>
    let p := s.scrollRegionPair
    if s.cursor.Y < p.1 ∨ p.2 < s.cursor.Y then t
    else
      let s := { s with
        content := deleteLinesG s.content s.cursor.Y n p.1 p.2 ' ',
        formatRows := deleteLinesShallowG s.formatRows s.cursor.Y n p.1 p.2
          (List.replicate s.width s.cursor.F),
        changes := deleteLinesShallowG s.changes s.cursor.Y n p.1 p.2 1 }
      { t with wrap := false, screen := some s }

/-- `save` (terminal.go 627-629): snapshot the cursor. -/
def Terminal.save (t : Terminal) : Terminal :=
  { t with screen := t.screen.map fun s => { s with savedCursor := s.cursor } }

/-- `unsave` (terminal.go 631-633): restore the snapshot — the assignment
`v.Cursor = v.SavedCursor` and nothing else (no clamping). -/
def Terminal.unsave (t : Terminal) : Terminal :=
  { t with screen := t.screen.map fun s => { s with cursor := s.savedCursor } }

/-- `swapAlt` (terminal.go 250-253): toggle `IsAlt` and exchange the two
screen pointers. -/
def Terminal.swapAlt (t : Terminal) : Terminal :=
  { t with isAlt := !t.isAlt, screen := t.alt, alt := t.screen }

/-- Modelled from the spec: the public alt-screen switch (the decoder-facing
caller of `swapAlt`) is not under src/.  Per §4.5 it "lazily creates the
alternate screen on first use (same dims, fully cleared), then exchanges
the active-screen pointer and toggles isAlt". -/
def Terminal.swapAltPublic (t : Terminal) : Terminal :=
  match t.screen, t.alt with
  | some s, none => Terminal.swapAlt { t with alt := some (TermScreen.new s.height s.width) }
  | _, _ => t.swapAlt

/-- The screen-level `resize` of the `Terminal` (terminal.go 208-213): resize
the active screen, and the alternate screen identically when present. -/
def Terminal.resize (t : Terminal) (h w : Nat) : Terminal :=
  { t with screen := t.screen.map (fun s => s.resize h w),
           alt := t.alt.map (fun s => s.resize h w) }

/-! ### Operation alphabet for the save/restore claim

The claim about `save`/`unsave` quantifies over "any sequence of
operations"; `Op` is the alphabet of engine operations defined above and
`applyOps` runs a sequence of them. -/

/-- One engine operation. -/
inductive Op where
  | put : Char → Op
  | moveAbs : Int → Int → Op
  | moveDown : Op
  | scrollUpN : Int → Op
  | eraseCharacters : Int → Op
  | deleteCharacters : Int → Op
  | insertLines : Int → Op
  | deleteLines : Int → Op
  | resize : Nat → Nat → Op

/-- Run one operation. -/
def applyOp (o : Op) (t : Terminal) : Terminal :=
  match o with
  | .put r => t.put r
  | .moveAbs y x => t.moveAbs y x
  | .moveDown => t.moveDown
  | .scrollUpN n => t.scrollUpN n
  | .eraseCharacters n => t.eraseCharacters n
  | .deleteCharacters n => t.deleteCharacters n
  | .insertLines n => t.insertLines n
  | .deleteLines n => t.deleteLines n
  | .resize h w => t.resize h w

/-- Run a sequence of operations, left to right. -/
def applyOps (ops : List Op) (t : Terminal) : Terminal :=
  ops.foldl (fun acc o => applyOp o acc) t

/-- The saved cursor of the active screen. -/
def Terminal.savedOf (t : Terminal) : Option Cursor :=
  t.screen.map fun s => s.savedCursor

/-- The cursor of the active screen. -/
def Terminal.cursorOf (t : Terminal) : Option Cursor :=
  t.screen.map fun s => s.cursor

/-- The content of the active screen. -/
def Terminal.contentOf (t : Terminal) : Option (List (List Char)) :=
  t.screen.map fun s => s.content

/-- The cell at `(y, x)` of the active screen. -/
def Terminal.cellAt (t : Terminal) (y x : Nat) : Option Char :=
  t.screen.map fun s => (s.content.getD y []).getD x ' '

/-- The format cell at `(y, x)` of the active screen. -/
def Terminal.formatAt (t : Terminal) (y x : Nat) : Option Format :=
  t.screen.map fun s => (s.formatRows.getD y []).getD x {}

/-! ### Concrete states used by the counterexamples and witnesses -/

/-- A uniform 5×10 part_000 screen with the cursor on the last row. -/
def screenShrinkInput : Screen := { Screen.new 5 10 with cursor := { Y := 4, X := 0 } }

/-- A ragged part_000 screen: row 0 has 10 cells, row 1 has 3. -/
def raggedScreen : Screen :=
  { height := 2, width := 10,
    content := [List.replicate 10 'a', List.replicate 3 'b'],
    format := [List.replicate 10 ({} : Format), List.replicate 3 ({} : Format)],
    cursor := {} }

/-- A 1×3 screen holding "abc" with the cursor at the origin. -/
def abcScreen : TermScreen := { TermScreen.new 1 3 with content := [['a', 'b', 'c']] }

/-- A 1×3 terminal holding "abc" with the cursor at the origin. -/
def termABC : Terminal := { Terminal.new 1 3 with screen := some abcScreen }

/-- A 5×2 screen holding rows "L0".."L4" with the cursor at (4,0) — the
scenario in which the bottom-row `moveDown` evicts "L0". -/
def screenL : TermScreen :=
  { TermScreen.new 5 2 with
    content := [['L', '0'], ['L', '1'], ['L', '2'], ['L', '3'], ['L', '4']],
    cursor := { Y := 4, X := 0 } }

/-- The terminal around `screenL`, with a scrollback observer registered. -/
def termL : Terminal :=
  { Terminal.new 5 2 with onScrollbackSet := true, screen := some screenL }

/-- A 5×1 screen with distinct rows, scroll region (0,2) and the cursor on
the bottom row — below the region. -/
def regionBottomScreen : TermScreen :=
  { TermScreen.new 5 1 with
    content := [['a'], ['b'], ['c'], ['d'], ['e']],
    cursor := { Y := 4, X := 0 },
    scrollRegion := some { start := 0, stop := 2 } }

/-- The terminal around `regionBottomScreen`. -/
def termRegionBottom : Terminal :=
  { Terminal.new 5 1 with screen := some regionBottomScreen }

/-- A 5×10 screen with the cursor on the last row (save/shrink/restore
scenario). -/
def bottomScreen : TermScreen := { TermScreen.new 5 10 with cursor := { Y := 4, X := 0 } }

/-- The terminal around `bottomScreen`. -/
def termCursorBottom : Terminal := { Terminal.new 5 10 with screen := some bottomScreen }

/-- A 2×3 main screen with "hi" written on row 0 and the cursor moved. -/
def mainScreenHi : TermScreen :=
  { TermScreen.new 2 3 with
    content := [['h', 'i', ' '], [' ', ' ', ' ']],
    cursor := { Y := 0, X := 2 } }

/-- The terminal around `mainScreenHi`, with no alternate screen yet. -/
def termMainHi : Terminal := { Terminal.new 2 3 with screen := some mainScreenHi }

/-- A blank 2×3 screen with the cursor at (0,1). -/
def midScreen : TermScreen := { TermScreen.new 2 3 with cursor := { Y := 0, X := 1 } }

/-- The terminal around `midScreen`. -/
def termMid : Terminal := { Terminal.new 2 3 with screen := some midScreen }

/-- A 3×2 screen whose scroll region is row 0 only, cursor on row 2 —
outside the region. -/
def outsideScreen : TermScreen :=
  { TermScreen.new 3 2 with
    cursor := { Y := 2, X := 0 },
    scrollRegion := some { start := 0, stop := 0 } }

/-- The terminal around `outsideScreen`. -/
def termOutside : Terminal := { Terminal.new 3 2 with screen := some outsideScreen }

/-! ## Theorems -/

/-- `getD` after an in-range `set` at the same index. -/
theorem getD_set_self {α : Type} (l : List α) (i : Nat) (a d : α) (h : i < l.length) :
    (l.set i a).getD i d = a := by
  rw [List.getD_eq_getElem _ _ (by simpa using h)]
  simp [List.getElem_set]

/-- `getD` on the left part of an append. -/
theorem getD_append_left {α : Type} (l l2 : List α) (i : Nat) (d : α) (h : i < l.length) :
    (l ++ l2).getD i d = l.getD i d :=
  List.getD_append _ _ _ _ h

/-- Reading the cell written by `setCell`. -/
theorem getD_setCell_self {α : Type} (g : List (List α)) (y x : Nat) (a d : α)
    (hy : y < g.length) (hx : x < (g.getD y []).length) :
    ((setCell g y x a).getD y []).getD x d = a := by
  unfold setCell
  rw [getD_set_self _ _ _ _ hy]
  exact getD_set_self _ _ _ _ hx

/-
C9.  `swapAlt()` twice in succession is the identity on the whole terminal
state: the active screen (contents, formats, cursor, saved cursor, scroll
region), the alternate screen and the `isAlt` flag all return to their
original values.
-/

/-- C9: calling `swapAlt` twice in succession returns the terminal to the
original state bit-for-bit — active screen, alternate screen and `isAlt`
are all restored. -/
theorem swapAlt_twice_id (t : Terminal) : t.swapAlt.swapAlt = t := by
  simp [Terminal.swapAlt]

/-- C1: in scenario S2 (rows "L0".."L4", cursor at the bottom, observer
registered), the bottom-row `moveDown` does evict "L0" — the rows shift up
and a blank bottom row appears — but the scrollback observer receives
nothing, because the `onScrollback` call inside `scrollUpN`'s notification
loop is commented out in the source. -/
theorem scrollback_observer_never_invoked :
    termL.onScrollbackSet = true ∧
    termL.moveDown.scrollbackLog = [] ∧
    termL.moveDown.contentOf =
      some [['L', '1'], ['L', '2'], ['L', '3'], ['L', '4'], [' ', ' ']] := by decide

/-- C2: `Screen.resize` on a 5×10 screen with the cursor at (4,0), shrinking
to 2 rows: the content is truncated to 2 rows but the `height` field stays
5 (so `len(content) == height` breaks) and the cursor stays at row 4
(not clamped to `h-1 = 1`). -/
theorem resize_stale_dims_unclamped_cursor :
    (screenShrinkInput.resize 2 10).content.length = 2 ∧
    (screenShrinkInput.resize 2 10).height = 5 ∧
    (screenShrinkInput.resize 2 10).cursor.Y = 4 ∧
    (screenShrinkInput.resize 2 10).width = 10 := by decide

/-- C3: two run-time faults on inputs the claim says are handled: `clear`
bounds-checks the column against row 0 and then writes into the shorter
row 1 (`clear(1,5)` on rows of lengths 10 and 3 faults), and
`deleteCharacters`' backfill loop uses the unclamped count, writing at a
negative index whenever `n` exceeds the row length (`n = 4` on a 3-cell
row faults). -/
theorem clear_ragged_and_delete_backfill_fault :
    raggedScreen.clearChecked 1 5 {} = none ∧
    deleteCharactersCheckedG [['a', 'b', 'c']] 0 0 4 ' ' = none := by decide

/-- C4 counterexample: `eraseCharacters(0)` is not a no-op — on a row "abc"
with the cursor at the origin it erases the first cell. -/
theorem eraseCharacters_zero_not_noop :
    (termABC.eraseCharacters 0).contentOf = some [[' ', 'b', 'c']] ∧
    termABC.contentOf = some [['a', 'b', 'c']] := by decide

/-!
C5.  The saved cursor is untouched by every engine operation except `save`,
so `save; ops; unsave` restores the cursor exactly as snapshotted — and
`unsave` performs no clamping, which refutes the clamping half of the
claim.
-/

theorem savedCursor_changed (s : TermScreen) (y : Nat) :
    (s.changed y).savedCursor = s.savedCursor := rfl

theorem savedCursor_paint (s : TermScreen) (y x : Nat) (f : Format) (r : Char) :
    (s.paint y x f r).savedCursor = s.savedCursor := rfl

theorem savedCursor_growTo (s : TermScreen) (h : Nat) :
    (s.growTo h).savedCursor = s.savedCursor := by
  unfold TermScreen.growTo; split <;> rfl

theorem savedCursor_extendRow (s : TermScreen) (y n : Nat) :
    (s.extendRow y n).savedCursor = s.savedCursor := by
  simp only [TermScreen.extendRow]; split <;> rfl

theorem savedCursor_resizeHeight (s : TermScreen) (h : Nat) :
    (s.resizeHeight h).savedCursor = s.savedCursor := by
  simp only [TermScreen.resizeHeight]
  split
  · exact savedCursor_growTo ..
  · split <;> rfl

theorem savedCursor_resizeWidth (s : TermScreen) (w : Nat) :
    (s.resizeWidth w).savedCursor = s.savedCursor := by
  simp only [TermScreen.resizeWidth]
  split
  · rfl
  · split <;> rfl

theorem savedCursor_resize (s : TermScreen) (h w : Nat) :
    (s.resize h w).savedCursor = s.savedCursor := by
  rw [TermScreen.resize, savedCursor_resizeWidth, savedCursor_resizeHeight]

theorem savedOf_withCursorX (t : Terminal) (x : Nat) :
    (t.withCursorX x).savedOf = t.savedOf := by
  cases h : t.screen <;> simp [Terminal.withCursorX, Terminal.savedOf, h]

theorem savedOf_scrollUpN (t : Terminal) (n : Int) :
    (t.scrollUpN n).savedOf = t.savedOf := by
  cases h : t.screen <;> simp [Terminal.scrollUpN, Terminal.savedOf, h]

theorem savedOf_moveAbs (t : Terminal) (y x : Int) :
    (t.moveAbs y x).savedOf = t.savedOf := by
  cases h : t.screen with
  | none => simp [Terminal.moveAbs, h]
  | some s =>
    simp only [Terminal.moveAbs, h]
    split <;> simp [Terminal.savedOf, h, savedCursor_growTo, savedCursor_extendRow] <;>
      split <;> simp [savedCursor_growTo, savedCursor_extendRow]

theorem savedOf_moveRel (t : Terminal) (dy dx : Int) :
    (t.moveRel dy dx).savedOf = t.savedOf := by
  cases h : t.screen with
  | none => simp [Terminal.moveRel, h]
  | some s => simp only [Terminal.moveRel, h]; exact savedOf_moveAbs ..

theorem savedOf_moveDown (t : Terminal) : t.moveDown.savedOf = t.savedOf := by
  cases h : t.screen with
  | none => simp [Terminal.moveDown, h]
  | some s =>
    simp only [Terminal.moveDown, h]
    split
    · exact savedOf_scrollUpN ..
    · split
      · exact savedOf_scrollUpN ..
      · exact savedOf_moveRel ..

theorem savedOf_advance (t : Terminal) : t.advance.savedOf = t.savedOf := by
  cases h : t.screen with
  | none => simp [Terminal.advance, h]
  | some s =>
    simp only [Terminal.advance, h]
    split
    · simp [Terminal.savedOf, h]
    · have h1 := savedOf_moveRel t 0 1
      cases h2 : (t.moveRel 0 1).screen with
      | none => simpa [h2] using h1
      | some s2 =>
        simp only [Terminal.savedOf, h2, Option.map_some] at h1 ⊢
        simpa [savedCursor_changed] using h1

theorem savedOf_putCore (t : Terminal) (r : Char) :
    (t.putCore r).savedOf = t.savedOf := by
  cases h : t.screen with
  | none => simp [Terminal.putCore, h]
  | some s =>
    simp only [Terminal.putCore, h]
    rw [savedOf_advance]
    simp [Terminal.savedOf, h, savedCursor_paint]

theorem savedOf_put (t : Terminal) (r : Char) : (t.put r).savedOf = t.savedOf := by
  unfold Terminal.put
  rw [savedOf_putCore]
  split
  · rw [show ({ (t.withCursorX 0).moveDown with wrap := false } : Terminal).savedOf =
        ((t.withCursorX 0).moveDown).savedOf from rfl,
      savedOf_moveDown, savedOf_withCursorX]
  · rfl

theorem savedOf_eraseCharacters (t : Terminal) (n : Int) :
    (t.eraseCharacters n).savedOf = t.savedOf := by
  cases h : t.screen <;>
    simp [Terminal.eraseCharacters, Terminal.savedOf, h, savedCursor_changed]

theorem savedOf_deleteCharacters (t : Terminal) (n : Int) :
    (t.deleteCharacters n).savedOf = t.savedOf := by
  cases h : t.screen <;>
    simp [Terminal.deleteCharacters, Terminal.savedOf, h, savedCursor_changed]

theorem savedOf_ensureHeight (t : Terminal) (h : Int) :
    (t.ensureHeight h).savedOf = t.savedOf := by
  unfold Terminal.ensureHeight
  split
  · cases h2 : t.screen <;> simp [Terminal.savedOf, h2, savedCursor_growTo]
  · rfl

theorem savedOf_insertLines (t : Terminal) (n : Int) :
    (t.insertLines n).savedOf = t.savedOf := by
  have h1 := savedOf_ensureHeight t ((t.cursorYOf : Int) + n)
  simp only [Terminal.insertLines]
  cases h : (t.ensureHeight ((t.cursorYOf : Int) + n)).screen with
  | none => simp only [h]; exact h1
  | some s =>
    simp only [h]
    split
    · exact h1
    · simp only [Terminal.savedOf, h] at h1
      simpa [Terminal.savedOf] using h1

theorem savedOf_deleteLines (t : Terminal) (n : Int) :
    (t.deleteLines n).savedOf = t.savedOf := by
  cases h : t.screen with
  | none => simp [Terminal.deleteLines, h]
  | some s =>
    simp only [Terminal.deleteLines, h]
    split
    · simp [Terminal.savedOf, h]
    · simp [Terminal.savedOf, h]

theorem savedOf_resize (t : Terminal) (h w : Nat) :
    (t.resize h w).savedOf = t.savedOf := by
  cases h2 : t.screen <;> simp [Terminal.resize, Terminal.savedOf, h2, savedCursor_resize]

theorem savedOf_applyOp (o : Op) (t : Terminal) : (applyOp o t).savedOf = t.savedOf := by
  cases o with
  | put r => exact savedOf_put ..
  | moveAbs y x => exact savedOf_moveAbs ..
  | moveDown => exact savedOf_moveDown ..
  | scrollUpN n => exact savedOf_scrollUpN ..
  | eraseCharacters n => exact savedOf_eraseCharacters ..
  | deleteCharacters n => exact savedOf_deleteCharacters ..
  | insertLines n => exact savedOf_insertLines ..
  | deleteLines n => exact savedOf_deleteLines ..
  | resize h w => exact savedOf_resize ..

theorem savedOf_applyOps (ops : List Op) (t : Terminal) :
    (applyOps ops t).savedOf = t.savedOf := by
  induction ops generalizing t with
  | nil => rfl
  | cons o os ih => rw [show applyOps (o :: os) t = applyOps os (applyOp o t) from rfl,
      ih, savedOf_applyOp]

/-- C5 counterexample: on a 5×10 terminal with the cursor at (4,0), `save`,
shrink to 2×10 with `resize`, then `unsave`: the restored cursor is row 4
while the height is 2 — `unsave` restored the snapshot without clamping it
into the shrunken bounds. -/
theorem unsave_without_clamp :
    (((termCursorBottom.save).resize 2 10).unsave).cursorOf = some { Y := 4, X := 0 } ∧
    (((termCursorBottom.save).resize 2 10).unsave).screen.map TermScreen.height =
      some 2 := by decide

/-- C5 (amended): `save` followed by any sequence of engine operations and
then `unsave` yields the cursor exactly as snapshotted at save time —
position, format and style, with no clamping, even when the dimensions have
shrunk since the save. -/
theorem unsave_restores_snapshot (t : Terminal) (s : TermScreen) (ops : List Op)
    (hs : t.screen = some s) :
    (Terminal.unsave (applyOps ops t.save)).cursorOf = some s.cursor := by
  have h1 : (applyOps ops t.save).savedOf = t.save.savedOf := savedOf_applyOps ..
  have h2 : t.save.savedOf = some s.cursor := by
    simp [Terminal.save, Terminal.savedOf, hs]
  cases h3 : (applyOps ops t.save).screen with
  | none => rw [Terminal.savedOf, h3, h2] at h1; simp at h1
  | some s2 =>
    simp only [Terminal.unsave, Terminal.cursorOf, h3, Option.map_some]
    rw [Terminal.savedOf, h3, h2] at h1
    simpa using h1

/-- C5 witness: the amended theorem applied to the concrete shrink scenario. -/
theorem unsave_restores_snapshot_w :
    (Terminal.unsave (applyOps [Op.resize 2 10] termCursorBottom.save)).cursorOf =
      some bottomScreen.cursor :=
  unsave_restores_snapshot termCursorBottom bottomScreen [Op.resize 2 10] rfl

/-!
C10.  With the cursor outside a set scroll region, `deleteLines` returns
before touching anything and `insertLines` returns right after its
`ensureHeight` call.
-/

theorem cursor_growTo (s : TermScreen) (h : Nat) : (s.growTo h).cursor = s.cursor := by
  unfold TermScreen.growTo; split <;> rfl

theorem scrollRegion_growTo (s : TermScreen) (h : Nat) :
    (s.growTo h).scrollRegion = s.scrollRegion := by
  unfold TermScreen.growTo; split <;> rfl

theorem contentRow_growTo (s : TermScreen) (h y : Nat) (hy : y < s.content.length) :
    (s.growTo h).content.getD y [] = s.content.getD y [] := by
  unfold TermScreen.growTo
  split
  · exact getD_append_left _ _ _ _ hy
  · rfl

theorem changesRow_growTo (s : TermScreen) (h y : Nat) (hy : y < s.changes.length) :
    (s.growTo h).changes.getD y 0 = s.changes.getD y 0 := by
  unfold TermScreen.growTo
  split
  · exact getD_append_left _ _ _ _ hy
  · rfl

/-- What `ensureHeight` leaves untouched: everything except the (possibly
grown) tail of the active screen. -/
theorem ensureHeight_fields (t : Terminal) (s : TermScreen) (h : Int)
    (hs : t.screen = some s) :
    (t.ensureHeight h).wrap = t.wrap ∧
    ∃ s2, (t.ensureHeight h).screen = some s2 ∧ s2.cursor = s.cursor ∧
      s2.scrollRegion = s.scrollRegion ∧
      (∀ y, y < s.content.length → s2.content.getD y [] = s.content.getD y []) ∧
      (∀ y, y < s.changes.length → s2.changes.getD y 0 = s.changes.getD y 0) := by
  unfold Terminal.ensureHeight
  split
  · refine ⟨rfl, s.growTo h.toNat, by simp [hs], cursor_growTo .., scrollRegion_growTo ..,
      fun y hy => contentRow_growTo _ _ _ hy, fun y hy => changesRow_growTo _ _ _ hy⟩
  · exact ⟨rfl, s, hs, rfl, rfl, fun _ _ => rfl, fun _ _ => rfl⟩

/-- C10: if the cursor row lies outside the active scroll region, then for
every `n > 0` `deleteLines(n)` leaves the whole terminal state unchanged,
and `insertLines(n)` equals its initial `ensureHeight(cursor.Y + n)` call —
it may only grow the height; the cursor, the wrap flag and every
pre-existing row's content and change counter are unchanged. -/
theorem lines_ops_outside_region (t : Terminal) (s : TermScreen) (rg : ScrollRegion)
    (n : Int) (hs : t.screen = some s) (hrg : s.scrollRegion = some rg)
    (hout : s.cursor.Y < rg.start ∨ rg.stop < s.cursor.Y) (hn : 0 < n) :
    t.deleteLines n = t ∧
    t.insertLines n = t.ensureHeight ((s.cursor.Y : Int) + n) ∧
    (t.insertLines n).cursorOf = some s.cursor ∧
    (t.insertLines n).wrap = t.wrap ∧
    (∀ y, y < s.content.length →
      (t.insertLines n).screen.map (fun s2 => s2.content.getD y []) =
        some (s.content.getD y [])) ∧
    (∀ y, y < s.changes.length →
      (t.insertLines n).screen.map (fun s2 => s2.changes.getD y 0) =
        some (s.changes.getD y 0)) := by
  have hYof : (t.cursorYOf : Int) = (s.cursor.Y : Int) := by
    simp [Terminal.cursorYOf, hs]
  obtain ⟨hw, s2, hscr, hcur, hreg, hrows, hch⟩ :=
    ensureHeight_fields t s ((s.cursor.Y : Int) + n) hs
  have hins : t.insertLines n = t.ensureHeight ((s.cursor.Y : Int) + n) := by
    simp only [Terminal.insertLines, hYof]
    simp only [hscr]
    rw [if_pos]
    simp only [TermScreen.scrollRegionPair, hreg, hrg]
    rw [hcur]
    exact hout
  refine ⟨?_, hins, ?_, ?_, ?_, ?_⟩
  · simp only [Terminal.deleteLines, hs]
    rw [if_pos]
    simp only [TermScreen.scrollRegionPair, hrg]
    exact hout
  · rw [hins, Terminal.cursorOf, hscr]
    exact congrArg some hcur
  · rw [hins, hw]
  · intro y hy
    rw [hins, hscr]
    exact congrArg some (hrows y hy)
  · intro y hy
    rw [hins, hscr]
    exact congrArg some (hch y hy)

/-- C10 witness: the theorem applied to a 3×2 terminal whose region is row 0
only and whose cursor is on row 2, with `n = 1`. -/
theorem lines_ops_outside_region_w :
    termOutside.deleteLines 1 = termOutside ∧
    termOutside.insertLines 1 = termOutside.ensureHeight 3 :=
  ⟨(lines_ops_outside_region termOutside outsideScreen { start := 0, stop := 0 } 1
      rfl rfl (by decide) (by decide)).1,
   (lines_ops_outside_region termOutside outsideScreen { start := 0, stop := 0 } 1
      rfl rfl (by decide) (by decide)).2.1⟩

/-!
C8.  The `moveDown` policy.  Branches 1 and 3 are as claimed; branch 2
(bottom of the screen, auto-resize-Y off) scrolls the *active region*, not
the full screen, because `scrollUpN` consults `scrollRegion()`.
-/

theorem cursorOf_scrollUpN (t : Terminal) (n : Int) :
    (t.scrollUpN n).cursorOf = t.cursorOf := by
  cases h : t.screen <;> simp [Terminal.scrollUpN, Terminal.cursorOf, h]

theorem height_growTo (s : TermScreen) (h : Nat) : (s.growTo h).height = max s.height h := by
  unfold TermScreen.growTo
  split <;> simp <;> omega

theorem width_growTo (s : TermScreen) (h : Nat) : (s.growTo h).width = s.width := by
  unfold TermScreen.growTo; split <;> rfl

theorem cursor_extendRow (s : TermScreen) (y n : Nat) :
    (s.extendRow y n).cursor = s.cursor := by
  simp only [TermScreen.extendRow]; split <;> rfl

/-- The cursor after `moveRel(1, 0)` from an in-bounds position that is not
blocked at the bottom: one row down, same column. -/
theorem cursorOf_moveRel_down (t : Terminal) (s : TermScreen)
    (hs : t.screen = some s) (hY : s.cursor.Y < s.height) (hX : s.cursor.X < s.width)
    (hnb : s.cursor.Y + 1 ≠ s.height ∨ t.autoResizeY) :
    (t.moveRel 1 0).cursorOf = some { s.cursor with Y := s.cursor.Y + 1 } := by
  simp only [Terminal.moveRel, hs, Terminal.moveAbs, Terminal.cursorOf]
  by_cases hay : t.autoResizeY ∧ (s.height : Int) < (s.cursor.Y : Int) + 1 + 1
  · rw [if_pos hay]
    have hh := height_growTo s ((s.cursor.Y : Int) + 1 + 1).toNat
    have hw := width_growTo s ((s.cursor.Y : Int) + 1 + 1).toNat
    have hlt : (s.height : Int) < (s.cursor.Y : Int) + 1 + 1 := hay.2
    by_cases hax : t.autoResizeX
    · rw [if_pos hax]
      apply congrArg some
      simp only [cursor_extendRow, cursor_growTo]
      simp only [Cursor.mk.injEq]
      exact ⟨by omega, by omega, by trivial, by trivial⟩
    · rw [if_neg hax]
      apply congrArg some
      simp only [cursor_growTo, hw]
      simp only [Cursor.mk.injEq]
      exact ⟨by omega, by omega, by trivial, by trivial⟩
  · rw [if_neg hay]
    have hy2 : s.cursor.Y + 2 ≤ s.height := by
      rcases hnb with hne | hauto
      · omega
      · rw [not_and, not_lt] at hay
        have := hay hauto
        omega
    by_cases hax : t.autoResizeX
    · rw [if_pos hax]
      apply congrArg some
      simp only [cursor_extendRow]
      simp only [Cursor.mk.injEq]
      exact ⟨by omega, by omega, by trivial, by trivial⟩
    · rw [if_neg hax]
      apply congrArg some
      simp only [Cursor.mk.injEq]
      exact ⟨by omega, by omega, by trivial, by trivial⟩

/-- C8 counterexample: a 5×1 terminal with scroll region (0,2) and the
cursor at the bottom row (outside the region), auto-resize-Y off.
`moveDown` scrolls rows 0-2 only — row 3 ("d") and row 4 ("e") stay put and
the blank appears at row 2 — which differs from the full-screen scroll the
claim prescribes for this state. -/
theorem moveDown_bottom_scrolls_region :
    termRegionBottom.moveDown.contentOf = some [['b'], ['c'], [' '], ['d'], ['e']] ∧
    scrollUpG regionBottomScreen.content 1 0 (regionBottomScreen.height - 1) ' ' =
      [['b'], ['c'], ['d'], ['e'], [' ']] ∧
    termRegionBottom.moveDown.contentOf ≠
      some (scrollUpG regionBottomScreen.content 1 0 (regionBottomScreen.height - 1) ' ') := by
  decide

/-- C8 (amended): `moveDown` policy.  (1) With a scroll region set and the
cursor on its last row, the region scrolls up one line (`scrollUpN 1`) and
the cursor is unchanged.  (2) Otherwise, at the bottom row with
auto-resize-Y off, the screen scrolls up one line *within the active scroll
region* — which is the full screen exactly when no region is set — and the
cursor is unchanged.  (3) Otherwise the cursor moves down one row. -/
theorem moveDown_policy (t : Terminal) (s : TermScreen)
    (hs : t.screen = some s) (hY : s.cursor.Y < s.height) (hX : s.cursor.X < s.width) :
    (∀ rg, s.scrollRegion = some rg → s.cursor.Y = rg.stop →
      t.moveDown = t.scrollUpN 1 ∧ t.moveDown.cursorOf = some s.cursor) ∧
    ((s.scrollRegion = none ∨ (∃ rg, s.scrollRegion = some rg ∧ s.cursor.Y ≠ rg.stop)) →
      s.cursor.Y + 1 = s.height → ¬t.autoResizeY →
      (t.moveDown = t.scrollUpN 1 ∧ t.moveDown.cursorOf = some s.cursor ∧
       (s.scrollRegion = none → s.scrollRegionPair = (0, s.height - 1)))) ∧
    ((s.scrollRegion = none ∨ (∃ rg, s.scrollRegion = some rg ∧ s.cursor.Y ≠ rg.stop)) →
      (s.cursor.Y + 1 ≠ s.height ∨ t.autoResizeY) →
      t.moveDown.cursorOf = some { s.cursor with Y := s.cursor.Y + 1 }) := by
  refine ⟨?_, ?_, ?_⟩
  · intro rg h1 h2
    have heq : t.moveDown = t.scrollUpN 1 := by
      simp only [Terminal.moveDown, hs]
      rw [if_pos]
      simp [h1, h2]
    refine ⟨heq, ?_⟩
    rw [heq, cursorOf_scrollUpN, Terminal.cursorOf, hs]
    rfl
  · intro hno h1 h2
    have hcond : ¬(s.scrollRegion.map ScrollRegion.stop = some s.cursor.Y) := by
      rcases hno with h | ⟨rg, hrg, hne⟩
      · simp [h]
      · simp [hrg]
        exact fun hc => hne hc.symm
    have heq : t.moveDown = t.scrollUpN 1 := by
      simp only [Terminal.moveDown, hs]
      rw [if_neg hcond, if_pos ⟨h1, h2⟩]
    refine ⟨heq, ?_, ?_⟩
    · rw [heq, cursorOf_scrollUpN, Terminal.cursorOf, hs]
      rfl
    · intro hnone
      simp [TermScreen.scrollRegionPair, hnone]
  · intro hno hnb
    have hcond : ¬(s.scrollRegion.map ScrollRegion.stop = some s.cursor.Y) := by
      rcases hno with h | ⟨rg, hrg, hne⟩
      · simp [h]
      · simp [hrg]
        exact fun hc => hne hc.symm
    have hcond2 : ¬(s.cursor.Y + 1 = s.height ∧ ¬t.autoResizeY) := by
      rcases hnb with h | h
      · exact fun hc => h hc.1
      · exact fun hc => hc.2 h
    have heq : t.moveDown = t.moveRel 1 0 := by
      simp only [Terminal.moveDown, hs]
      rw [if_neg hcond, if_neg hcond2]
    rw [heq]
    exact cursorOf_moveRel_down t s hs hY hX hnb

/-- C8 witness: branch 2 of the policy at the concrete region-bottom
terminal — `moveDown` is `scrollUpN 1` and the cursor stays at (4,0). -/
theorem moveDown_policy_w :
    termRegionBottom.moveDown = termRegionBottom.scrollUpN 1 ∧
    termRegionBottom.moveDown.cursorOf = some regionBottomScreen.cursor :=
  ⟨((moveDown_policy termRegionBottom regionBottomScreen rfl (by decide) (by decide)).2.1
      (Or.inr ⟨{ start := 0, stop := 2 }, rfl, by decide⟩) (by decide) (by decide)).1,
   ((moveDown_policy termRegionBottom regionBottomScreen rfl (by decide) (by decide)).2.1
      (Or.inr ⟨{ start := 0, stop := 2 }, rfl, by decide⟩) (by decide) (by decide)).2.1⟩

/-- C6: entering the alternate screen for the first time (no alternate
screen yet): the switch creates a fresh screen with the active screen's
dimensions, makes it active and stashes the old screen in `alt`, toggling
`isAlt`; the fresh screen is entirely blank with the cursor at the origin —
regardless of what was written to the main screen. -/
theorem swapAlt_first_use_blank (t : Terminal) (s : TermScreen)
    (hs : t.screen = some s) (ha : t.alt = none) :
    t.swapAltPublic.screen = some (TermScreen.new s.height s.width) ∧
    t.swapAltPublic.alt = some s ∧
    t.swapAltPublic.isAlt = !t.isAlt ∧
    (TermScreen.new s.height s.width).content =
      List.replicate s.height (List.replicate s.width ' ') ∧
    (TermScreen.new s.height s.width).cursor = {} := by
  simp only [Terminal.swapAltPublic, hs, ha]
  exact ⟨rfl, by simp [Terminal.swapAlt, hs], rfl, rfl, rfl⟩

/-- C6 witness: the theorem applied to a 2×3 terminal whose main screen
holds "hi". -/
theorem swapAlt_first_use_blank_w :
    termMainHi.swapAltPublic.screen =
      some (TermScreen.new mainScreenHi.height mainScreenHi.width) ∧
    termMainHi.swapAltPublic.alt = some mainScreenHi ∧
    termMainHi.swapAltPublic.isAlt = !termMainHi.isAlt ∧
    (TermScreen.new mainScreenHi.height mainScreenHi.width).content =
      List.replicate mainScreenHi.height (List.replicate mainScreenHi.width ' ') ∧
    (TermScreen.new mainScreenHi.height mainScreenHi.width).cursor = {} :=
  swapAlt_first_use_blank termMainHi mainScreenHi rfl rfl

/-!
C4.  Counts `n ≤ 0` are not no-ops: `eraseCharacters` turns them into a
one-cell erase, `deleteCharacters(0)` into a one-cell delete, and both
wrappers clear the wrap flag and bump the cursor row's change counter
unconditionally.
-/

/-- C4 (amended): with the cursor in bounds and `n ≤ 0`, `eraseCharacters(n)`
erases exactly one cell at the cursor (the count is treated as 1), leaving
the formats alone; `deleteCharacters(n)` with `n < 0` leaves content and
formats alone, and with `n = 0` shifts the cursor row left by one from the
cursor with the last cell keeping its value; in every case the cursor
row's change counter is bumped and the wrap flag is cleared — so none of
these calls leaves the state unchanged. -/
theorem count_nonpositive_behaviour (t : Terminal) (s : TermScreen) (n : Int)
    (hs : t.screen = some s)
    (hY : s.cursor.Y < s.content.length)
    (hX : s.cursor.X < (s.content.getD s.cursor.Y []).length)
    (hn : n ≤ 0) :
    ((t.eraseCharacters n).contentOf =
       some (setCell s.content s.cursor.Y s.cursor.X ' ') ∧
     (t.eraseCharacters n).screen.map TermScreen.formatRows = some s.formatRows ∧
     (t.eraseCharacters n).screen.map TermScreen.changes =
       some (bumpAt s.changes s.cursor.Y) ∧
     (t.eraseCharacters n).wrap = false) ∧
    (n < 0 →
      (t.deleteCharacters n).contentOf = some s.content ∧
      (t.deleteCharacters n).screen.map TermScreen.formatRows = some s.formatRows ∧
      (t.deleteCharacters n).screen.map TermScreen.changes =
        some (bumpAt s.changes s.cursor.Y) ∧
      (t.deleteCharacters n).wrap = false) ∧
    (n = 0 →
      (t.deleteCharacters n).contentOf =
        some (s.content.set s.cursor.Y
          ((s.content.getD s.cursor.Y []).take s.cursor.X ++
           (s.content.getD s.cursor.Y []).drop (s.cursor.X + 1) ++
           (s.content.getD s.cursor.Y []).drop
             ((s.content.getD s.cursor.Y []).length - 1))) ∧
      (t.deleteCharacters n).screen.map TermScreen.formatRows = some s.formatRows ∧
      (t.deleteCharacters n).screen.map TermScreen.changes =
        some (bumpAt s.changes s.cursor.Y) ∧
      (t.deleteCharacters n).wrap = false) := by
  have hYn : ¬(s.cursor.Y ≥ s.content.length) := by omega
  refine ⟨?_, ?_, ?_⟩
  · have hguard : ¬((s.cursor.X : Int) + n >
        (((s.content.getD s.cursor.Y []).length : Nat) : Int)) := by
      omega
    have hcontent : eraseCharactersG s.content s.cursor.Y s.cursor.X n ' ' =
        setCell s.content s.cursor.Y s.cursor.X ' ' := by
      simp only [eraseCharactersG]
      rw [if_neg hYn, if_neg hguard, if_pos hn]
      simp [List.range_succ]
    have hfmt : paintRange s.formatRows s.cursor.Y s.cursor.X n s.cursor.F =
        s.formatRows := by
      simp only [paintRange, Int.toNat_of_nonpos hn, List.range_zero, List.foldl_nil]
    simp only [Terminal.eraseCharacters, hs, Terminal.contentOf, TermScreen.changed,
      hcontent, hfmt]
    refine ⟨?_, ?_, ?_, ?_⟩ <;> first | rfl | trivial
  · intro hneg
    have hcontent : deleteCharactersG s.content s.cursor.Y s.cursor.X n ' ' =
        s.content := by
      simp only [deleteCharactersG]
      rw [if_neg hYn, if_pos (Or.inr hneg)]
    have hfmt : canvasDelete s.formatRows s.cursor.Y s.cursor.X n = s.formatRows := by
      simp only [canvasDelete]
      rw [if_pos hn]
    simp only [Terminal.deleteCharacters, hs, Terminal.contentOf, TermScreen.changed,
      hcontent, hfmt]
    refine ⟨?_, ?_, ?_, ?_⟩ <;> first | rfl | trivial
  · intro hzero
    subst hzero
    have hguard : ¬(s.cursor.X ≥ (s.content.getD s.cursor.Y []).length ∨
        (0 : Int) < 0) := by
      push_neg
      exact ⟨by omega, le_refl 0⟩
    have hclamp : ¬(s.cursor.X + 1 > (s.content.getD s.cursor.Y []).length) := by
      omega
    have hcontent : deleteCharactersG s.content s.cursor.Y s.cursor.X 0 ' ' =
        s.content.set s.cursor.Y
          ((s.content.getD s.cursor.Y []).take s.cursor.X ++
           (s.content.getD s.cursor.Y []).drop (s.cursor.X + 1) ++
           (s.content.getD s.cursor.Y []).drop
             ((s.content.getD s.cursor.Y []).length - 1)) := by
      simp only [deleteCharactersG]
      rw [if_neg hYn, if_neg hguard]
      simp only [ite_true, Int.toNat_zero, List.range_zero, List.foldl_nil]
      rw [if_neg hclamp]
    have hfmt : canvasDelete s.formatRows s.cursor.Y s.cursor.X 0 = s.formatRows := by
      simp only [canvasDelete]
      rw [if_pos (le_refl 0)]
    simp only [Terminal.deleteCharacters, hs, Terminal.contentOf, TermScreen.changed,
      hcontent, hfmt]
    refine ⟨?_, ?_, ?_, ?_⟩ <;> first | rfl | trivial

/-!
C7.  `put` follows the wrap / paint / advance shape of the claim.
-/

theorem getD_set_ne {α : Type} (l : List α) (i j : Nat) (a d : α) (h : i ≠ j) :
    (l.set i a).getD j d = l.getD j d := by
  rcases lt_or_ge j l.length with hj | hj
  · rw [List.getD_eq_getElem _ _ (by simpa using hj), List.getD_eq_getElem _ _ hj]
    simp only [List.getElem_set]
    rw [if_neg h]
  · rw [List.getD_eq_default _ _ (by simpa using hj), List.getD_eq_default _ _ hj]

theorem cursor_paint (s : TermScreen) (y x : Nat) (f : Format) (r : Char) :
    (s.paint y x f r).cursor = s.cursor := rfl

theorem content_paint (s : TermScreen) (y x : Nat) (f : Format) (r : Char) :
    (s.paint y x f r).content = setCell s.content y x r := rfl

theorem formatRows_paint (s : TermScreen) (y x : Nat) (f : Format) (r : Char) :
    (s.paint y x f r).formatRows = setCell s.formatRows y x f := rfl

theorem formatRow_growTo (s : TermScreen) (h y : Nat) (hy : y < s.formatRows.length) :
    (s.growTo h).formatRows.getD y [] = s.formatRows.getD y [] := by
  unfold TermScreen.growTo
  split
  · exact getD_append_left _ _ _ _ hy
  · rfl

/-- Extending a row only appends cells: every in-range cell keeps its value. -/
theorem cellRow_extendRow (s : TermScreen) (yr n y x : Nat) (d : Char)
    (hx : x < (s.content.getD y []).length) :
    ((s.extendRow yr n).content.getD y []).getD x d =
      (s.content.getD y []).getD x d := by
  simp only [TermScreen.extendRow]
  split
  · by_cases hyy : yr = y
    · subst hyy
      rcases lt_or_ge yr s.content.length with hlt | hge
      · rw [getD_set_self _ _ _ _ hlt, getD_append_left _ _ _ _ hx]
      · rw [List.set_eq_of_length_le hge]
    · rw [getD_set_ne _ _ _ _ _ hyy]
  · rfl

/-- Extending a row leaves every in-range format cell alone. -/
theorem formatCell_extendRow (s : TermScreen) (yr n y x : Nat) (d : Format)
    (hx : x < (s.formatRows.getD y []).length) :
    ((s.extendRow yr n).formatRows.getD y []).getD x d =
      (s.formatRows.getD y []).getD x d := by
  simp only [TermScreen.extendRow]
  split
  · by_cases hyy : yr = y
    · subst hyy
      rcases lt_or_ge yr s.formatRows.length with hlt | hge
      · rw [getD_set_self _ _ _ _ hlt, getD_append_left _ _ _ _ hx]
      · rw [List.set_eq_of_length_le hge]
    · rw [getD_set_ne _ _ _ _ _ hyy]
  · rfl

theorem wrap_moveAbs (t : Terminal) (y x : Int) : (t.moveAbs y x).wrap = t.wrap := by
  cases h : t.screen with
  | none => simp [Terminal.moveAbs, h]
  | some s =>
    simp only [Terminal.moveAbs, h]
    split <;> rfl

theorem wrap_moveRel (t : Terminal) (dy dx : Int) : (t.moveRel dy dx).wrap = t.wrap := by
  cases h : t.screen with
  | none => simp [Terminal.moveRel, h]
  | some s => simp only [Terminal.moveRel, h]; exact wrap_moveAbs ..

/-- The cursor after `moveRel(0, 1)` when the move is not blocked: one
column right, same row. -/
theorem cursorOf_moveRel_right (t : Terminal) (s : TermScreen)
    (hs : t.screen = some s) (hY : s.cursor.Y < s.height) (hX : s.cursor.X < s.width)
    (hnb : t.autoResizeX ∨ s.cursor.X + 1 ≠ s.width) :
    (t.moveRel 0 1).cursorOf = some { s.cursor with X := s.cursor.X + 1 } := by
  simp only [Terminal.moveRel, hs, Terminal.moveAbs, Terminal.cursorOf]
  have hng : ¬(t.autoResizeY ∧ (s.height : Int) < (s.cursor.Y : Int) + 0 + 1) := by
    intro hc
    have := hc.2
    omega
  rw [if_neg hng]
  by_cases hax : t.autoResizeX
  · rw [if_pos hax]
    apply congrArg some
    simp only [cursor_extendRow, Cursor.mk.injEq]
    exact ⟨by omega, by omega, by trivial, by trivial⟩
  · rw [if_neg hax]
    have hlt : s.cursor.X + 1 < s.width := by
      rcases hnb with h | h
      · exact absurd h hax
      · omega
    apply congrArg some
    simp only [Cursor.mk.injEq]
    exact ⟨by omega, by omega, by trivial, by trivial⟩

/-- `moveRel(0, 1)` never changes an in-range content cell. -/
theorem cellAt_moveRel_right (t : Terminal) (s : TermScreen)
    (hs : t.screen = some s) (hYH : s.cursor.Y < s.height)
    (y x : Nat) (hx : x < (s.content.getD y []).length) :
    (t.moveRel 0 1).cellAt y x = some ((s.content.getD y []).getD x ' ') := by
  simp only [Terminal.moveRel, hs, Terminal.moveAbs, Terminal.cellAt]
  have hng : ¬(t.autoResizeY ∧ (s.height : Int) < (s.cursor.Y : Int) + 0 + 1) := by
    intro hc
    have := hc.2
    omega
  rw [if_neg hng]
  by_cases hax : t.autoResizeX
  · rw [if_pos hax]
    exact congrArg some (cellRow_extendRow _ _ _ _ _ _ hx)
  · rw [if_neg hax]
    rfl

/-- `moveRel(0, 1)` never changes an in-range format cell. -/
theorem formatAt_moveRel_right (t : Terminal) (s : TermScreen)
    (hs : t.screen = some s) (hYH : s.cursor.Y < s.height)
    (y x : Nat) (hx : x < (s.formatRows.getD y []).length) :
    (t.moveRel 0 1).formatAt y x = some ((s.formatRows.getD y []).getD x {}) := by
  simp only [Terminal.moveRel, hs, Terminal.moveAbs, Terminal.formatAt]
  have hng : ¬(t.autoResizeY ∧ (s.height : Int) < (s.cursor.Y : Int) + 0 + 1) := by
    intro hc
    have := hc.2
    omega
  rw [if_neg hng]
  by_cases hax : t.autoResizeX
  · rw [if_pos hax]
    exact congrArg some (formatCell_extendRow _ _ _ _ _ _ hx)
  · rw [if_neg hax]
    rfl

/-- Row lengths survive `setCell`. -/
theorem rowLen_setCell {α : Type} (g : List (List α)) (y x : Nat) (a : α)
    (hy : y < g.length) :
    ((setCell g y x a).getD y []).length = (g.getD y []).length := by
  unfold setCell
  rw [getD_set_self _ _ _ _ hy]
  simp

/-- The observable behaviour of `advance`: at the last column without
auto-resize-X it only sets the wrap flag; otherwise the wrap flag is
untouched, the cursor moves right one column and no in-range cell changes. -/
theorem advance_spec (u : Terminal) (su : TermScreen)
    (hu : u.screen = some su)
    (hY : su.cursor.Y < su.height) (hX : su.cursor.X < su.width)
    (y x : Nat) (hxc : x < (su.content.getD y []).length)
    (hxf : x < (su.formatRows.getD y []).length) :
    (¬u.autoResizeX ∧ su.cursor.X + 1 = su.width →
       u.advance = { u with wrap := true }) ∧
    ((u.autoResizeX ∨ su.cursor.X + 1 ≠ su.width) →
       u.advance.wrap = u.wrap ∧
       u.advance.cursorOf = some { su.cursor with X := su.cursor.X + 1 } ∧
       u.advance.cellAt y x = some ((su.content.getD y []).getD x ' ') ∧
       u.advance.formatAt y x = some ((su.formatRows.getD y []).getD x {})) := by
  constructor
  · intro hc
    simp only [Terminal.advance, hu]
    rw [if_pos hc]
  · intro hc
    have hcond : ¬(¬u.autoResizeX ∧ su.cursor.X + 1 = su.width) := by
      rcases hc with h | h
      · exact fun hcc => hcc.1 h
      · exact fun hcc => h hcc.2
    simp only [Terminal.advance, hu]
    rw [if_neg hcond]
    have hcur := cursorOf_moveRel_right u su hu hY hX
      (by rcases hc with h | h
          · exact Or.inl h
          · exact Or.inr h)
    have hcell := cellAt_moveRel_right u su hu hY y x hxc
    have hfmt := formatAt_moveRel_right u su hu hY y x hxf
    have hwrap := wrap_moveRel u 0 1
    cases hT3 : (u.moveRel 0 1).screen with
    | none =>
      rw [Terminal.cursorOf, hT3] at hcur
      simp at hcur
    | some s3 =>
      simp only [hT3]
      rw [Terminal.cursorOf, hT3] at hcur
      have hc3 : s3.cursor = { su.cursor with X := su.cursor.X + 1 } :=
        Option.some.inj hcur
      rw [Terminal.cellAt, hT3] at hcell
      have hcell3 : (s3.content.getD y []).getD x ' ' =
          (su.content.getD y []).getD x ' ' := Option.some.inj hcell
      rw [Terminal.formatAt, hT3] at hfmt
      have hfmt3 : (s3.formatRows.getD y []).getD x {} =
          (su.formatRows.getD y []).getD x {} := Option.some.inj hfmt
      exact ⟨hwrap, congrArg some hc3, congrArg some hcell3, congrArg some hfmt3⟩

/-- `putCore` is `advance` of the painted state; the painted state's
observable fields. -/
theorem putCore_spec (t : Terminal) (s : TermScreen) (r : Char)
    (hs : t.screen = some s) :
    ∃ su : TermScreen,
      t.putCore r = Terminal.advance { t with screen := some su } ∧
      su.cursor = s.cursor ∧ su.width = s.width ∧ su.height = s.height ∧
      su.content = setCell s.content s.cursor.Y s.cursor.X r ∧
      su.formatRows = setCell s.formatRows s.cursor.Y s.cursor.X s.cursor.F := by
  refine ⟨{ s.paint s.cursor.Y s.cursor.X s.cursor.F r with
      maxY := max (s.paint s.cursor.Y s.cursor.X s.cursor.F r).maxY s.cursor.Y,
      maxX := max (s.paint s.cursor.Y s.cursor.X s.cursor.F r).maxX s.cursor.X },
    ?_, rfl, rfl, rfl, rfl, rfl⟩
  simp only [Terminal.putCore, hs]

/-- C7: `put(r)` follows the claimed shape.  If the deferred-wrap flag is
set, the call equals `put` into the state obtained by moving the cursor to
column 0, running `moveDown` and clearing the flag.  With the flag clear,
the rune lands at the cursor cell with the cursor format, and then: if
auto-resize-X is off and the cursor sits in the last column, the wrap flag
is set and the cursor stays in place; otherwise the flag stays clear and
the cursor moves right by one column. -/
theorem put_wrap_paint_advance (t : Terminal) (s : TermScreen) (r : Char)
    (hs : t.screen = some s)
    (hYH : s.cursor.Y < s.height)
    (hXW : s.cursor.X < s.width)
    (hYc : s.cursor.Y < s.content.length)
    (hXc : s.cursor.X < (s.content.getD s.cursor.Y []).length)
    (hYf : s.cursor.Y < s.formatRows.length)
    (hXf : s.cursor.X < (s.formatRows.getD s.cursor.Y []).length) :
    (t.wrap = true →
      t.put r = Terminal.put { (t.withCursorX 0).moveDown with wrap := false } r) ∧
    (t.wrap = false →
      (t.put r).cellAt s.cursor.Y s.cursor.X = some r ∧
      (t.put r).formatAt s.cursor.Y s.cursor.X = some s.cursor.F ∧
      (¬t.autoResizeX ∧ s.cursor.X + 1 = s.width →
        (t.put r).wrap = true ∧ (t.put r).cursorOf = some s.cursor) ∧
      ((t.autoResizeX ∨ s.cursor.X + 1 ≠ s.width) →
        (t.put r).wrap = false ∧
        (t.put r).cursorOf = some { s.cursor with X := s.cursor.X + 1 })) := by
  constructor
  · intro h
    rw [Terminal.put, Terminal.put, if_pos h, if_neg (by simp)]
  · intro h
    have hput : t.put r = t.putCore r := by
      rw [Terminal.put, if_neg (by simp [h])]
    obtain ⟨su, hpc, hcur, hw, hh, hcont, hfmts⟩ := putCore_spec t s r hs
    have hsuY : su.cursor.Y < su.height := by rw [hcur, hh]; exact hYH
    have hsuX : su.cursor.X < su.width := by rw [hcur, hw]; exact hXW
    have hrowlen : (su.content.getD s.cursor.Y []).length =
        (s.content.getD s.cursor.Y []).length := by
      rw [hcont]; exact rowLen_setCell _ _ _ _ hYc
    have hsuxc : s.cursor.X < (su.content.getD s.cursor.Y []).length := by
      rw [hrowlen]; exact hXc
    have hfrowlen : (su.formatRows.getD s.cursor.Y []).length =
        (s.formatRows.getD s.cursor.Y []).length := by
      rw [hfmts]; exact rowLen_setCell _ _ _ _ hYf
    have hsuxf : s.cursor.X < (su.formatRows.getD s.cursor.Y []).length := by
      rw [hfrowlen]; exact hXf
    have hcellval : (su.content.getD s.cursor.Y []).getD s.cursor.X ' ' = r := by
      rw [hcont]; exact getD_setCell_self _ _ _ _ _ hYc hXc
    have hfmtval : (su.formatRows.getD s.cursor.Y []).getD s.cursor.X {} = s.cursor.F := by
      rw [hfmts]; exact getD_setCell_self _ _ _ _ _ hYf hXf
    obtain ⟨hadv1, hadv2⟩ := advance_spec { t with screen := some su } su rfl hsuY hsuX
      s.cursor.Y s.cursor.X hsuxc hsuxf
    rw [hput, hpc]
    have hlift1 : ∀ hc : ¬t.autoResizeX ∧ s.cursor.X + 1 = s.width,
        ¬({ t with screen := some su } : Terminal).autoResizeX ∧
          su.cursor.X + 1 = su.width := by
      intro hc
      exact ⟨hc.1, by rw [hcur, hw]; exact hc.2⟩
    have hlift2 : ∀ _ : t.autoResizeX ∨ s.cursor.X + 1 ≠ s.width,
        ({ t with screen := some su } : Terminal).autoResizeX ∨
          su.cursor.X + 1 ≠ su.width := by
      intro hc
      rcases hc with hx | hx
      · exact Or.inl hx
      · exact Or.inr (by rw [hcur, hw]; exact hx)
    refine ⟨?_, ?_, ?_, ?_⟩
    · by_cases hcnd : ¬t.autoResizeX ∧ s.cursor.X + 1 = s.width
      · rw [hadv1 (hlift1 hcnd)]
        exact congrArg some hcellval
      · have hcnd2 : t.autoResizeX ∨ s.cursor.X + 1 ≠ s.width := by
          by_cases hax : t.autoResizeX
          · exact Or.inl hax
          · exact Or.inr fun he => hcnd ⟨hax, he⟩
        exact ((hadv2 (hlift2 hcnd2)).2.2.1).trans (congrArg some hcellval)
    · by_cases hcnd : ¬t.autoResizeX ∧ s.cursor.X + 1 = s.width
      · rw [hadv1 (hlift1 hcnd)]
        exact congrArg some hfmtval
      · have hcnd2 : t.autoResizeX ∨ s.cursor.X + 1 ≠ s.width := by
          by_cases hax : t.autoResizeX
          · exact Or.inl hax
          · exact Or.inr fun he => hcnd ⟨hax, he⟩
        exact ((hadv2 (hlift2 hcnd2)).2.2.2).trans (congrArg some hfmtval)
    · intro hcnd
      rw [hadv1 (hlift1 hcnd)]
      exact ⟨rfl, congrArg some hcur⟩
    · intro hcnd
      have h1 := (hadv2 (hlift2 hcnd)).1
      have h2 := (hadv2 (hlift2 hcnd)).2.1
      rw [hcur] at h2
      exact ⟨h1.trans h, h2⟩

/-- C7 witness: the theorem at a 2×3 terminal with the cursor at (0,1),
wrap clear: putting 'Z' paints the cell and moves the cursor to (0,2). -/
theorem put_wrap_paint_advance_w :
    (termMid.put 'Z').cellAt midScreen.cursor.Y midScreen.cursor.X = some 'Z' ∧
    (termMid.put 'Z').wrap = false ∧
    (termMid.put 'Z').cursorOf =
      some { midScreen.cursor with X := midScreen.cursor.X + 1 } :=
  ⟨((put_wrap_paint_advance termMid midScreen 'Z' rfl (by decide) (by decide) (by decide)
      (by decide) (by decide) (by decide)).2 rfl).1,
   (((put_wrap_paint_advance termMid midScreen 'Z' rfl (by decide) (by decide) (by decide)
      (by decide) (by decide) (by decide)).2 rfl).2.2.2 (Or.inr (by decide))).1,
   (((put_wrap_paint_advance termMid midScreen 'Z' rfl (by decide) (by decide) (by decide)
      (by decide) (by decide) (by decide)).2 rfl).2.2.2 (Or.inr (by decide))).2⟩

/-- C4 witness: the amended theorem at the "abc" terminal with `n = 0`. -/
theorem count_nonpositive_behaviour_w :
    (termABC.eraseCharacters 0).contentOf =
      some (setCell abcScreen.content 0 0 ' ') ∧
    (termABC.deleteCharacters 0).contentOf =
      some (abcScreen.content.set 0
        ((abcScreen.content.getD 0 []).take 0 ++
         (abcScreen.content.getD 0 []).drop 1 ++
         (abcScreen.content.getD 0 []).drop ((abcScreen.content.getD 0 []).length - 1))) :=
  ⟨(count_nonpositive_behaviour termABC abcScreen 0 rfl (by decide) (by decide)
      (by decide)).1.1,
   ((count_nonpositive_behaviour termABC abcScreen 0 rfl (by decide) (by decide)
      (by decide)).2.2 rfl).1⟩

end Midterm
